import Mathlib

/-!
Verification development for the matchms Pipeline orchestration core and the
accompanying harmonization filters and MSP export.  Python sources are shallowly
embedded: dict-backed metadata becomes association lists, in-place mutation of
shared lists is made explicit through small heaps of addressed cells, fallible
code returns `Except`, and machine floats are modelled as rationals.
-/

set_option maxHeartbeats 1000000

namespace MatchmsSpec

/-! ## Metadata values

Python metadata values relevant to the embedded filters: strings, ints, floats,
flat lists (pyteomics ChargeList and the like) and the explicit `None` marker. -/

/-- Atomic metadata value appearing inside a Python list value. -/
inductive Atom where
  | str (s : String)
  | int (n : Int)
  | float (q : Rat)
  deriving DecidableEq, Repr

/-- Metadata value: string, int, float, flat list, or Python `None`. -/
inductive Value where
  | str (s : String)
  | int (n : Int)
  | float (q : Rat)
  | vlist (l : List Atom)
  | vnone
  deriving DecidableEq, Repr

/-- Lift an atomic value back to a metadata value (Python list indexing). -/
def atomToValue : Atom → Value
  | .str s => .str s
  | .int n => .int n
  | .float q => .float q

/-- Insert-or-replace for an association list, preserving order of existing
keys and appending a fresh key at the end, as Python dict assignment does. -/
def upsert {α : Type} (l : List (String × α)) (k : String) (v : α) : List (String × α) :=
  if l.any (fun p => p.1 == k) then l.map (fun p => if p.1 == k then (k, v) else p)
  else l ++ [(k, v)]

/-- ASCII lowercasing standing in for Python `str.lower`, defined on the
character list so that it evaluates by kernel reduction. -/
def lowerString (s : String) : String := ⟨s.data.map Char.toLower⟩

/-- ASCII uppercasing standing in for Python `str.upper`. -/
def upperString (s : String) : String := ⟨s.data.map Char.toUpper⟩

/-- Evaluable `str.startswith`. -/
def startsWithStr (s pre : String) : Bool := pre.data.isPrefixOf s.data

/-- Concatenation of a list of strings (structural, so it both evaluates and
supports induction). -/
def joinStr : List String → String
  | [] => ""
  | a :: l => a ++ joinStr l

/-- Separator-interleaved concatenation, Python `sep.join`. -/
def intercalateStr (sep : String) : List String → String
  | [] => ""
  | [a] => a
  | a :: l => a ++ sep ++ intercalateStr sep l

/-- Spectrum: metadata mapping plus peak arrays and per-mz peak comments,
embedding `matchms.Spectrum` as far as the claims need it. -/
structure Spectrum where
  metadata : List (String × Value)
  peaksMz : List Rat
  peaksIntensities : List Rat
  peakComments : List (Rat × String)
  deriving DecidableEq, Repr

instance : Inhabited Spectrum := ⟨⟨[], [], [], []⟩⟩

/-- Field lookup, `Spectrum.get` in matchms (missing key gives Python `None`,
modelled as `Option.none`). -/
def Spectrum.get (s : Spectrum) (k : String) : Option Value :=
  (s.metadata.find? (fun p => p.1 == k)).map Prod.snd

/-- Field update, `Spectrum.set` in matchms. -/
def Spectrum.set (s : Spectrum) (k : String) (v : Value) : Spectrum :=
  { s with metadata := upsert s.metadata k v }

/-- Spectrum cloning; with value semantics the clone is the value itself, the
allocation aspect is modelled separately through heaps where a claim needs it. -/
def Spectrum.clone (s : Spectrum) : Spectrum := s

/-! ## Python numeric conversions

`float(...)` and `int(...)` on the value shapes the filters feed them.  The
string grammar models plain decimal literals (optional sign, digits, optional
fractional part); all theorems about conversion failure are conditioned on the
parse outcome, so the exact accepted fragment is immaterial to them. -/

/-- Exceptions raised by the embedded Python code. -/
inductive PyFail where
  | valueError
  | typeError
  | indexError
  | attributeError
  | keyError (k : String)
  deriving DecidableEq, Repr

/-- Digit-string to number; `none` when empty or containing a non-digit. -/
def digitsToNat (cs : List Char) : Option Nat :=
  match cs with
  | [] => none
  | _ => cs.foldl (fun acc c =>
      match acc with
      | none => none
      | some n => if c.isDigit then some (n * 10 + (c.toNat - 48)) else none) (some 0)

/-- Model of Python `int(str)` on decimal integer literals. -/
def intParse (s : String) : Option Int :=
  match s.data with
  | '-' :: rest => (digitsToNat rest).map (fun n => -(n : Int))
  | '+' :: rest => (digitsToNat rest).map (fun n => (n : Int))
  | cs => (digitsToNat cs).map (fun n => (n : Int))

/-- Fractional-literal core: digits with an optional single dot. -/
def floatCore (cs : List Char) : Option Rat :=
  match cs.splitOn '.' with
  | [ip] =>
    match digitsToNat ip with
    | some n => some (n : Rat)
    | none => none
  | [ip, fp] =>
    if (decide (ip ≠ []) || decide (fp ≠ [])) && ip.all Char.isDigit && fp.all Char.isDigit then
      some ((ip.foldl (fun n c => n * 10 + (c.toNat - 48)) 0 : Rat) +
            (fp.foldl (fun n c => n * 10 + (c.toNat - 48)) 0 : Rat) / ((10 : Rat) ^ fp.length))
    else none
  | _ => none

/-- Model of Python `float(str)` on plain decimal literals. -/
def floatParse (s : String) : Option Rat :=
  match s.data with
  | '-' :: rest => (floatCore rest).map (fun q => -q)
  | '+' :: rest => floatCore rest
  | cs => floatCore cs

/-- Python `float(value)`: numbers convert, strings parse or raise
`ValueError`, lists and `None` raise `TypeError`. -/
def floatOfValue : Value → Except PyFail Rat
  | .int n => .ok (n : Rat)
  | .float q => .ok q
  | .str s =>
    match floatParse s with
    | some q => .ok q
    | none => .error .valueError
  | .vlist _ => .error .typeError
  | .vnone => .error .typeError

/-- Truncation toward zero, Python `int(float)`. -/
def ratTrunc (q : Rat) : Int := Int.tdiv q.num (q.den : Int)

/-- Python `int(value)` on an atomic value. -/
def intOfAtom : Atom → Except PyFail Int
  | .int n => .ok n
  | .float q => .ok (ratTrunc q)
  | .str s =>
    match intParse s with
    | some n => .ok n
    | none => .error .valueError

/-- Rendering of a float value, standing in for Python `str(float)`;
integral rationals render with a trailing `.0`, others fall back to the
`num/den` form (the structural theorems do not depend on the digits chosen). -/
def showFloat (q : Rat) : String :=
  if q.den = 1 then toString q.num ++ (".0") else toString q

/-- Rendering of an atomic value, standing in for Python `str`. -/
def showAtom : Atom → String
  | .str s => s
  | .int n => toString n
  | .float q => showFloat q

/-- Rendering of a metadata value, standing in for Python `str`. -/
def showValue : Value → String
  | .str s => s
  | .int n => toString n
  | .float q => showFloat q
  | .vlist l => "[" ++ intercalateStr (", ") (l.map showAtom) ++ "]"
  | .vnone => "None"

/-! ## `matchms.filtering.add_retention` (src/matchms/filtering/add_retention.py) -/

/-- Retention-time warning emitted by `safe_convert_to_float`
(`"%s can't be converted to float."`, apostrophe elided). -/
def rtWarn (v : Value) : String :=
  showValue v ++ (" cannot be converted to float.")

/-- Embeds `safe_convert_to_float` together with the single-element-list
unwrapping: converts to float, discards negative values, catches only
`ValueError` (warning, `None`); any `TypeError` escapes.  Result pairs the
stored value with emitted warnings. -/
def safe_convert_to_float (value : Value) : Except PyFail (Option Rat × List String) :=
  let value :=
    match value with
    | .vlist [a] => atomToValue a
    | v => v
  match floatOfValue value with
  | .ok v => .ok (if 0 ≤ v then some v else none, [])
  | .error .valueError => .ok (none, [rtWarn value])
  | .error e => .error e

/-- Embeds `safe_store_value` at the `Optional[float]` type it is used at in
`_add_retention`: a present value is re-run through `safe_convert_to_float`,
and the result (float or Python `None`) is stored under the target key. -/
def safe_store_value (spectrum : Spectrum) (value : Option Rat) (target_key : String) :
    Except PyFail (Spectrum × List String) :=
  match value with
  | none => .ok (spectrum.set target_key .vnone, [])
  | some v =>
    match safe_convert_to_float (.float v) with
    | .ok (rt, w) =>
      .ok (spectrum.set target_key (match rt with | some r => .float r | none => .vnone), w)
    | .error e => .error e

/-- Modelled from the spec: `matchms.utils.get_common_keys` is not under
`src/` (the spec treats utils as a collaborator); modelled as the accepted
keys (second list) whose value, directly or lowercased, occurs among the
metadata keys (first list), in accepted-list order. -/
def get_common_keys (first second : List String) : List String :=
  second.filter (fun v => first.contains v || first.contains (lowerString v))

/-- Modelled from the spec: `matchms.utils.filter_none` is not under `src/`;
composed here with the metadata getters: keeps the values of the given keys,
dropping missing keys and stored Python `None`. -/
def getValuesForKeys (s : Spectrum) (keys : List String) : List Value :=
  keys.filterMap (fun k =>
    match s.get k with
    | some v => if v = Value.vnone then none else some v
    | none => none)

/-- Left-to-right `map(safe_convert_to_float, ...)`, propagating the first
raised exception as Python's `list(map(...))` would. -/
def mapConvert : List Value → Except PyFail (List (Option Rat) × List String)
  | [] => .ok ([], [])
  | v :: rest => do
    let (r, w) ← safe_convert_to_float v
    let (rs, ws) ← mapConvert rest
    .ok (r :: rs, w ++ ws)

/-- First non-`None` converted value, `next(filter_none(values), None)`. -/
def firstSome (l : List (Option Rat)) : Option Rat := (l.filterMap id).head?

/-- Accepted metadata keys carrying a retention time. -/
def retention_time_keys : List String :=
  ["retention_time", "retentiontime", "rt", "scan_start_time", "RT_Query"]

/-- Embeds `_add_retention`: values of the common accepted keys are converted,
the first successful one (or `None`) is stored under the target key. -/
def add_retention_core (spectrum : Spectrum) (target_key : String)
    (accepted_keys : List String) : Except PyFail (Spectrum × List String) := do
  let common_keys := get_common_keys (spectrum.metadata.map Prod.fst) accepted_keys
  let values_for_keys := getValuesForKeys spectrum common_keys
  let (values, ws) ← mapConvert values_for_keys
  let (sp, ws2) ← safe_store_value spectrum (firstSome values) target_key
  .ok (sp, ws ++ ws2)

/-- Embeds `add_retention_time` on spectrum values: clone, then harmonize the
`retention_time` key. -/
def add_retention_time (spectrum_in : Option Spectrum) :
    Except PyFail (Option Spectrum × List String) :=
  match spectrum_in with
  | none => .ok (none, [])
  | some s => do
    let (sp, w) ← add_retention_core s.clone ("retention_time") retention_time_keys
    .ok (some sp, w)

/-- Heap-level `add_retention_time`: the input lives at address `i` of `heap`;
`clone` allocates a fresh cell (appended) and every subsequent `set` mutates
only that cell, mirroring `spectrum = spectrum_in.clone()` followed by
in-place `spectrum.set`.  Returns the new heap and the clone's address. -/
def add_retention_time_heap (heap : List Spectrum) (i : Nat) :
    Except PyFail (List Spectrum × Nat) :=
  match heap.get? i with
  | none => .error .indexError
  | some s => do
    let (sp, _) ← add_retention_core s ("retention_time") retention_time_keys
    .ok (heap ++ [sp], heap.length)

/-! ## `matchms.filtering.make_charge_int` (src/matchms/filtering/make_charge_int.py) -/

/-- Charge warning emitted by `make_charge_int`
(`"Found charge (%s) cannot be converted to integer."`). -/
def chargeWarn (s : String) : String :=
  "Found charge (" ++ s ++ (") cannot be converted to integer.")

/-- Embeds `make_charge_int`: a list charge is replaced by `int` of its first
element (uncaught exceptions escape), then a string charge is converted with
`ValueError` caught into a warning, leaving the field unchanged. -/
def make_charge_int (spectrum_in : Option Spectrum) :
    Except PyFail (Option Spectrum × List String) :=
  match spectrum_in with
  | none => .ok (none, [])
  | some s0 =>
    let s := s0.clone
    match s.get ("charge") with
    | some (.vlist l) =>
      match l.head? with
      | none => .error .indexError
      | some a =>
        match intOfAtom a with
        | .ok n => .ok (some (s.set ("charge") (.int n)), [])
        | .error e => .error e
    | some (.str str) =>
      match intParse str with
      | some n => .ok (some (s.set ("charge") (.int n)), [])
      | none => .ok (some s, [chargeWarn str])
    | _ => .ok (some s, [])

/-! ## Pipeline workflow validation (src/matchms/Pipeline.py) -/

/-- Similarity-measure instance: class name (used as score-column key) and the
pairwise score function.  Constructor options are absorbed into the instance,
as no claim inspects them. -/
structure Measure where
  name : String
  f : Spectrum → Spectrum → Rat

/-- First element of a `score_computations` entry: a string, a callable
(already resolved to the measure it constructs), or some other object. -/
inductive CompHead where
  | str (s : String)
  | call (m : Measure)
  | obj

/-- Keyword options of a `score_computations` entry as used by
`filter_by_range` (`name`, `low`, `high`). -/
structure MaskOpts where
  name : Option String
  low : Option Rat
  high : Option Rat
  deriving DecidableEq, Repr

/-- One `score_computations` entry: either a bare head or a
`[head, options]` pair. -/
inductive Computation where
  | bare (hd : CompHead)
  | listed (hd : CompHead) (opts : MaskOpts)

/-- First element of an entry (`computation[0]` after the list coercion). -/
def Computation.head : Computation → CompHead
  | .bare hd => hd
  | .listed hd _ => hd

/-- The module-level `_masking_functions` list. -/
def masking_functions : List String := ["filter_by_range"]

/-- Key set of the module-level `_score_functions` dict: the names of the
callables of `matchms.similarity` (a module not under `src/`, abstracted as a
name list) lowercased at import time. -/
def mkScoreKeys (registryNames : List String) : List String :=
  registryNames.map lowerString

/-- Acceptance test applied by `check_score_computation` to `computation[0]`:
a masking-function name, a key of `_score_functions`, or a callable. -/
def headAccepted (keys : List String) : CompHead → Bool
  | .str s => masking_functions.contains s || keys.contains s
  | .call _ => true
  | .obj => false

/-- Rendering of an entry head inside the error f-string. -/
def showCompHead : CompHead → String
  | .str s => s
  | .call _ => "<callable>"
  | .obj => "<object>"

/-- The `ValueError` message `f"Unknown score computation: {computation[0]}."`. -/
def unknownCompMsg (hd : CompHead) : String :=
  "Unknown score computation: " ++ showCompHead hd ++ (".")

/-- Embeds `check_score_computation`: walks the entries in order and raises on
the first entry whose head is neither a masking-function name, nor a key of
`_score_functions`, nor callable. -/
def check_score_computation (keys : List String) : List Computation → Except String Unit
  | [] => .ok ()
  | c :: rest =>
    if headAccepted keys c.head then check_score_computation keys rest
    else .error (unknownCompMsg c.head)

/-- Acceptance predicate in the claim's wording: masking op, registered
similarity-measure name matched case-insensitively, or callable. -/
def claimAccepted (registryNames : List String) : CompHead → Bool
  | .str s => masking_functions.contains s || registryNames.any (fun r => lowerString s == lowerString r)
  | .call _ => true
  | .obj => false

/-- Acceptance predicate actually implemented: masking op, the exact lowercase
form of a registered name, or callable. -/
def amendedAccepted (registryNames : List String) : CompHead → Bool
  | .str s => masking_functions.contains s || registryNames.any (fun r => s == lowerString r)
  | .call _ => true
  | .obj => false

/-! ## Sparse score matrix

`matchms.Scores` / sparsestack's `StackedSparseArray` are dependencies not
under `src/`; their operations used by `Pipeline` are modelled from the spec
(§4.2): coordinates carry a named mapping of score columns, `score_names`
lists the columns in order of addition. -/

/-- Sparse score matrix: one entry per retained coordinate with its named
score values, plus the chronological list of score-column names. -/
structure ScoreMatrix where
  entries : List ((Nat × Nat) × List (String × Rat))
  scoreNames : List String
  deriving DecidableEq, Repr

/-- Coordinate set (as a list) of the matrix. -/
def ScoreMatrix.coords (m : ScoreMatrix) : List (Nat × Nat) := m.entries.map Prod.fst

/-- Value of a named column inside one entry's score mapping. -/
def lookupScore (vals : List (String × Rat)) (name : String) : Option Rat :=
  (vals.find? (fun p => p.1 == name)).map Prod.snd

/-- Modelled from the spec: `calculate_scores(..., array_type="sparse")` is
not under `src/`; spec §4.2 `initialize` computes the first measure over the
full reference×query grid, producing the initial coordinate set and the first
score column named after the measure.  `is_symmetric` only changes the
computation strategy, not the resulting values, so it is not a parameter. -/
def initScores (references queries : List Spectrum) (m : Measure) : ScoreMatrix :=
  { entries :=
      (List.range references.length).flatMap (fun r =>
        (List.range queries.length).map (fun q =>
          ((r, q), [(m.name, m.f (references.getD r default) (queries.getD q default))]))),
    scoreNames := [m.name] }

/-- Modelled from the spec: sparsestack's `add_sparse_data` is not under
`src/`; spec §4.2 `extend` adds the new score under the measure's type name,
overwriting an existing column of the same name at the same coordinates.
`vals.get k` is the value for coordinate `idx.get k`. -/
def add_sparse_data (mtx : ScoreMatrix) (idx : List (Nat × Nat)) (vals : List Rat)
    (name : String) : ScoreMatrix :=
  { entries := mtx.entries.map (fun e =>
      match (idx.zip vals).find? (fun p => p.1 == e.1) with
      | some p => (e.1, upsert e.2 name p.2)
      | none => e),
    scoreNames :=
      if mtx.scoreNames.contains name then mtx.scoreNames else mtx.scoreNames ++ [name] }

/-- Modelled from the spec: a measure's `sparse_array` entrypoint evaluates
the measure at exactly the requested coordinates, in order (spec §6). -/
def sparseEval (references queries : List Spectrum) (m : Measure)
    (idx : List (Nat × Nat)) : List Rat :=
  idx.map (fun c => m.f (references.getD c.1 default) (queries.getD c.2 default))

/-- Range test of the masking step: omitted bound means unbounded on that
side (spec §4.2). -/
def inRangeB (v : Rat) (low high : Option Rat) : Bool :=
  (match low with | none => true | some lo => decide (lo ≤ v)) &&
  (match high with | none => true | some hi => decide (v ≤ hi))

/-- Modelled from the spec: `Scores.filter_by_range` is provided by the
sparsestack dependency, not under `src/`; spec §4.2 `mask` retains exactly the
coordinates whose value under `score_name` lies in `[low, high]` and fails
with a Configuration error when `score_name` is absent from the matrix. -/
def filter_by_range (mtx : ScoreMatrix) (name : String) (low high : Option Rat) :
    Except PyFail ScoreMatrix :=
  if mtx.scoreNames.contains name then
    .ok { entries := mtx.entries.filter (fun e =>
            match lookupScore e.2 name with
            | some v => inRangeB v low high
            | none => false),
          scoreNames := mtx.scoreNames }
  else .error (.keyError name)

/-- Embeds `Pipeline._apply_score_masking`: with no options the most recently
added column is filtered with default bounds; with options lacking `name` the
most recent column is filtered with the given bounds; otherwise the options
are passed through.  When `self.scores` is still `None` every branch fails
with `AttributeError`. -/
def apply_score_masking (scores : Option ScoreMatrix) (comp : Computation) :
    Except PyFail ScoreMatrix :=
  match scores with
  | none => .error .attributeError
  | some mtx =>
    match comp with
    | .bare _ =>
      match mtx.scoreNames.getLast? with
      | none => .error .indexError
      | some name => filter_by_range mtx name none none
    | .listed _ opts =>
      match opts.name with
      | none =>
        match mtx.scoreNames.getLast? with
        | none => .error .indexError
        | some name => filter_by_range mtx name opts.low opts.high
      | some name => filter_by_range mtx name opts.low opts.high

/-- Embeds `get_similarity_measure`: string heads are looked up in the
`_score_functions` registry (`KeyError` when absent), callables are invoked,
anything else raises `TypeError`. -/
def resolveMeasure (registry : List (String × Measure)) (comp : Computation) :
    Except PyFail Measure :=
  match comp.head with
  | .str s =>
    match (registry.find? (fun p => p.1 == s)).map Prod.snd with
    | some m => .ok m
    | none => .error (.keyError s)
  | .call m => .ok m
  | .obj => .error .typeError

/-- Embeds `Pipeline._apply_similarity_measure`: the first computation
(`i = 0`) initializes the matrix; later ones evaluate the measure's sparse
entrypoint at the current coordinates (`self.scores.scores.row/col`) and add
the result as a column named after the measure's class. -/
def apply_similarity_measure (references queries : List Spectrum)
    (registry : List (String × Measure)) (scores : Option ScoreMatrix)
    (comp : Computation) (i : Nat) : Except PyFail ScoreMatrix :=
  match resolveMeasure registry comp with
  | .error e => .error e
  | .ok m =>
    if i = 0 then .ok (initScores references queries m)
    else
      match scores with
      | none => .error .attributeError
      | some mtx =>
        .ok (add_sparse_data mtx mtx.coords (sparseEval references queries m mtx.coords) m.name)

/-- Score-computation loop of `Pipeline.run`: dispatches each entry on
whether its head names a masking function, threading the enumeration index
and the growing `self.scores`. -/
def runComputations (references queries : List Spectrum)
    (registry : List (String × Measure)) :
    List Computation → Nat → Option ScoreMatrix → Except PyFail (Option ScoreMatrix)
  | [], _, scores => .ok scores
  | c :: rest, i, scores =>
    let step : Except PyFail ScoreMatrix :=
      match c.head with
      | .str s =>
        if masking_functions.contains s then apply_score_masking scores c
        else apply_similarity_measure references queries registry scores c i
      | _ => apply_similarity_measure references queries registry scores c i
    match step with
    | .error e => .error e
    | .ok mtx => runComputations references queries registry rest (i + 1) (some mtx)

/-- External collaborators of one `Pipeline.run`: the `_score_functions`
registry and the two spectrum processors (spec §6 `process`), each mapping a
spectrum collection to the surviving processed collection. -/
structure PipelineEnv where
  registry : List (String × Measure)
  processQueries : List Spectrum → List Spectrum
  processReferences : List Spectrum → List Spectrum

/-- Observable outcome of one successful `Pipeline.run`. -/
structure RunResult where
  queries : List Spectrum
  references : List Spectrum
  scores : Option ScoreMatrix
  isSymmetric : Bool
  refPassRan : Bool
  deriving DecidableEq, Repr

/-- Embeds `Pipeline.run` together with `import_spectrums`: sources are given
as already-loaded spectrum lists (file loading is a collaborator), queries are
concatenated in call order; a missing reference source sets symmetric mode and
aliases the reference collection to the queries; query processing always runs,
reference processing only in non-symmetric mode (`refPassRan` records it);
then the score-computation loop runs over `score_computations`. -/
def Pipeline.run (env : PipelineEnv) (comps : List Computation)
    (queryData : List (List Spectrum)) (referenceData : Option (List (List Spectrum))) :
    Except PyFail RunResult :=
  let queriesRaw := queryData.flatten
  let imported :=
    match referenceData with
    | none => (true, queriesRaw)
    | some d => (false, d.flatten)
  let queriesProcessed := env.processQueries queriesRaw
  let processed :=
    match imported.1 with
    | false => (env.processReferences imported.2, true)
    | true => (queriesProcessed, false)
  match runComputations processed.1 queriesProcessed env.registry comps 0 none with
  | .error e => .error e
  | .ok scores =>
    .ok { queries := queriesProcessed, references := processed.1,
          scores := scores, isSymmetric := imported.1, refPassRan := processed.2 }

/-! ## Workflow loading (`load_in_workflow_from_yaml_file`) with list identity

Python assigns list objects by reference; to settle the copy-vs-alias claim
the two filter lists live in a small heap of addressed cells, and an in-place
list mutation is an update of one cell. -/

/-- Loaded workflow document: a heap of filter lists, the address of the
query filter list, and the reference-filters field — `none` encodes the
sentinel string `"processing_queries"`, `some a` a list at address `a`. -/
structure WorkflowHeap where
  lists : List (List String)
  queryAddr : Nat
  refField : Option Nat
  deriving DecidableEq, Repr

/-- Current value of `workflow["query_filters"]`. -/
def readQueryFilters (w : WorkflowHeap) : List String := w.lists.getD w.queryAddr []

/-- Current value of `workflow["reference_filters"]` (`none` while it still
holds the sentinel). -/
def readReferenceFilters (w : WorkflowHeap) : Option (List String) :=
  w.refField.map (fun a => w.lists.getD a [])

/-- Embeds lines 56–57 of `Pipeline.py`: on the sentinel, the reference field
is assigned the query filter *object* — the same address, no copy. -/
def load_in_workflow_resolve (w : WorkflowHeap) : WorkflowHeap :=
  match w.refField with
  | none => { w with refField := some w.queryAddr }
  | some _ => w

/-- Follows the claim's wording (refinement target): resolving the sentinel
substitutes an independent copy of the query filter list. -/
def load_in_workflow_resolve_copying (w : WorkflowHeap) : WorkflowHeap :=
  match w.refField with
  | none => { w with lists := w.lists ++ [readQueryFilters w], refField := some w.lists.length }
  | some _ => w

/-- In-place mutation of the list stored at address `a`. -/
def mutateList (w : WorkflowHeap) (a : Nat) (l : List String) : WorkflowHeap :=
  { w with lists := w.lists.set a l }

/-! ## The `reference_filters` property setter (Pipeline.py lines 400–403) -/

/-- Workflow mapping for the getter/setter claims; the field values are
abstracted to filter lists (the reference-filters path never inspects them). -/
abbrev WorkflowDict := List (String × List String)

/-- Embeds the `reference_filters` property getter:
`self.__workflow.get("reference_filters")`. -/
def getReferenceFilters (w : WorkflowDict) : Option (List String) :=
  (w.find? (fun p => p.1 == "reference_filters")).map Prod.snd

/-- Embeds the `reference_filters` property setter as written in the source:
`self.__workflow["refernece_filters"] = filters` (note the transposed key). -/
def setReferenceFilters (w : WorkflowDict) (filters : List String) : WorkflowDict :=
  upsert w ("refernece_filters") filters

/-- The key set `check_workflow` asserts. -/
def expectedKeys : List String := ["query_filters", "reference_filters", "score_computations"]

/-- Embeds the key-set assertion of `Pipeline.check_workflow`:
`set(self.__workflow.keys()) == expected_keys`. -/
def check_workflow_keys (w : WorkflowDict) : Bool :=
  expectedKeys.all (fun k => (w.map Prod.fst).contains k) &&
  (w.map Prod.fst).all (fun k => expectedKeys.contains k)

/-! ## MSP export (src/matchms/exporting/save_as_msp.py)

The open file is modelled as the concatenation of the strings written to it;
`os.linesep` is modelled as the POSIX `"\n"`. -/

/-- Model of Python `str.expandtabs`: walks the characters tracking the
column, replacing each tab by spaces up to the next multiple of `tabsize`
(dropping it when `tabsize = 0`) and resetting the column after newlines. -/
def expandTabsAux (tabsize : Nat) : List Char → Nat → List Char
  | [], _ => []
  | c :: rest, col =>
    if c = '\t' then
      if tabsize = 0 then expandTabsAux tabsize rest col
      else
        List.replicate (tabsize - col % tabsize) ' ' ++
          expandTabsAux tabsize rest (col + (tabsize - col % tabsize))
    else if c = '\n' ∨ c = '\r' then c :: expandTabsAux tabsize rest 0
    else c :: expandTabsAux tabsize rest (col + 1)

/-- String-level `str.expandtabs(tabsize)`. -/
def expandTabs (s : String) (tabsize : Nat) : String :=
  ⟨expandTabsAux tabsize s.data 0⟩

/-- Embeds `is_num_peaks`. -/
def is_num_peaks (key : String) : Bool := startsWithStr (lowerString key) ("num peaks")

/-- Embeds `write_metadata`: one `KEY: value` line per metadata item whose
key does not start with `num peaks`. -/
def write_metadata (metadata : List (String × Value)) : String :=
  joinStr (metadata.filterMap (fun p =>
    if is_num_peaks p.1 then none
    else some (upperString p.1 ++ (": ") ++ showValue p.2 ++ ("\n"))))

/-- Embeds `format_peak_comment`: the double-quoted comment stored for this
mz, or the empty string. -/
def format_peak_comment (mz : Rat) (peakComments : List (Rat × String)) : String :=
  match (peakComments.find? (fun p => p.1 == mz)).map Prod.snd with
  | none => ""
  | some c => "\"" ++ c ++ "\""

/-- Embeds `write_peaks`: the `NUM PEAKS:` count line, then per peak the
tab-separated `mz`, `intensity`, comment line passed through
`expandtabs(12)`. -/
def write_peaks (mzs ints : List Rat) (peakComments : List (Rat × String)) : String :=
  "NUM PEAKS: " ++ toString mzs.length ++ ("\n") ++
  joinStr ((mzs.zip ints).map (fun p =>
    expandTabs (showFloat p.1 ++ ("\t") ++ showFloat p.2 ++ ("\t") ++
      format_peak_comment p.1 peakComments ++ ("\n")) 12))

/-- Embeds `write_spectrum`: metadata, peaks, then `os.linesep`. -/
def write_spectrum (s : Spectrum) : String :=
  write_metadata s.metadata ++ write_peaks s.peaksMz s.peaksIntensities s.peakComments ++ ("\n")

/-- Embeds `save_as_msp` restricted to its writing behaviour: the file
content produced for a list of spectra. -/
def save_as_msp_string (spectra : List Spectrum) : String :=
  joinStr (spectra.map write_spectrum)

/-- Follows the claim's wording (refinement target): one record per spectrum —
every metadata item as an uppercased `KEY: value` line, a peak-count line,
then one `mz⟨tab⟩intensity⟨tab⟩quoted-comment` line per peak. -/
def claim_msp_record (s : Spectrum) : String :=
  joinStr (s.metadata.map (fun p => upperString p.1 ++ (": ") ++ showValue p.2 ++ ("\n"))) ++
  "NUM PEAKS: " ++ toString s.peaksMz.length ++ ("\n") ++
  joinStr ((s.peaksMz.zip s.peaksIntensities).map (fun p =>
    showFloat p.1 ++ ("\t") ++ showFloat p.2 ++ ("\t") ++
      format_peak_comment p.1 s.peakComments ++ ("\n")))

/-- Follows the claim's wording: records joined with a single blank-line
separator strictly *between* records. -/
def claim_msp_output (spectra : List Spectrum) : String :=
  intercalateStr ("\n") (spectra.map claim_msp_record)

/-- Amended record format, stated line-wise: metadata lines minus `num peaks`
keys, the count line, the tab-expanded peak lines, and a terminating blank
line. -/
def amended_record_lines (s : Spectrum) : List String :=
  (s.metadata.filterMap (fun p =>
    if is_num_peaks p.1 then none else some (upperString p.1 ++ (": ") ++ showValue p.2))) ++
  ["NUM PEAKS: " ++ toString s.peaksMz.length] ++
  ((s.peaksMz.zip s.peaksIntensities).map (fun p =>
    expandTabs (showFloat p.1 ++ ("\t") ++ showFloat p.2 ++ ("\t") ++
      format_peak_comment p.1 s.peakComments) 12)) ++
  [""]

/-- Amended output: every record's lines, each closed by a newline. -/
def amended_msp_output (spectra : List Spectrum) : String :=
  joinStr (spectra.map (fun s =>
    joinStr ((amended_record_lines s).map (fun l => l ++ ("\n")))))

/-! ## Concrete fixtures used by closed theorems and witnesses -/

/-- Pipeline environment whose spectrum processors are the identity. -/
def idEnv (registry : List (String × Measure)) : PipelineEnv :=
  { registry := registry, processQueries := id, processReferences := id }

/-- Minimal query spectrum for run fixtures. -/
def fxSpectrum : Spectrum :=
  { metadata := [("precursor_mz", .float 100)], peaksMz := [100], peaksIntensities := [200],
    peakComments := [] }

/-- Configured similarity measure used in run fixtures. -/
def fxMeasure : Measure := { name := "PrecursorMzMatch", f := fun _ _ => 1 }

/-- Second configured measure, for extension fixtures. -/
def fxMeasure2 : Measure := { name := "ModifiedCosine", f := fun _ _ => (1 : Rat) / 2 }

/-- `score_computations` whose very first entry is the masking operation. -/
def fxMaskFirst : List Computation :=
  [.listed (.str ("filter_by_range")) { name := some ("score"), low := some (1 / 2), high := none }]

/-- Two-column, two-coordinate score matrix fixture. -/
def fxMatrix : ScoreMatrix :=
  { entries := [((0, 0), [("PrecursorMzMatch", 1), ("CosineGreedy_score", 1 / 4)]),
                ((0, 1), [("PrecursorMzMatch", 1), ("CosineGreedy_score", 3 / 4)])],
    scoreNames := ["PrecursorMzMatch", "CosineGreedy_score"] }

/-- Spectrum with an unconvertible string charge. -/
def fxBadCharge : Spectrum :=
  { metadata := [("charge", .str ("2+"))], peaksMz := [], peaksIntensities := [],
    peakComments := [] }

/-- Spectrum whose retention time is an unparseable string. -/
def fxBadRt : Spectrum :=
  { metadata := [("retention_time", .str ("later"))], peaksMz := [], peaksIntensities := [],
    peakComments := [] }

/-- Spectrum with a negative retention-time value. -/
def fxNegativeRt : Spectrum :=
  { metadata := [("retention_time", .float (-5))], peaksMz := [], peaksIntensities := [],
    peakComments := [] }

/-- Loaded workflow document holding the sentinel in the reference field. -/
def fxSentinelDoc : WorkflowHeap :=
  { lists := [["add_mz"]], queryAddr := 0, refField := none }

/-- Well-formed workflow mapping for the setter fixture. -/
def fxWorkflowDict : WorkflowDict :=
  [("query_filters", ["f1"]), ("reference_filters", ["f2"]), ("score_computations", [])]

/-- Single-peak spectrum for the export fixture. -/
def fxMspSpectrum : Spectrum :=
  { metadata := [("charge", .int (-1))], peaksMz := [100], peaksIntensities := [200],
    peakComments := [] }

/-- Registry fixture holding one configured measure under its lowercase key. -/
def fxRegistry : List (String × Measure) := [("modifiedcosine", fxMeasure2)]

/-- Computation entry naming the fixture measure. -/
def fxComp2 : Computation := .bare (.str ("modifiedcosine"))

/-- Result of the fixture symmetric run with no score computations. -/
def fxSymResult : RunResult :=
  { queries := [fxSpectrum], references := [fxSpectrum], scores := none,
    isSymmetric := true, refPassRan := false }

/-- Score value stored at coordinate `c` under column `name`. -/
def valueAt (mtx : ScoreMatrix) (name : String) (c : Nat × Nat) : Option Rat :=
  match mtx.entries.find? (fun e => e.1 == c) with
  | some e => lookupScore e.2 name
  | none => none

/-- Coordinate-level masking predicate in the claim's wording: the
coordinate's value under `name` lies in `[low, high]` (omitted bounds
unconstrained). -/
def maskKeep (mtx : ScoreMatrix) (name : String) (low high : Option Rat) (c : Nat × Nat) : Bool :=
  match valueAt mtx name c with
  | some v => inRangeB v low high
  | none => false

/-! ## Theorems -/

/-- The check's membership test against the lowercased key set equals the
exact-lowercase acceptance predicate. -/
theorem headAccepted_mkScoreKeys (registryNames : List String) (hd : CompHead) :
    headAccepted (mkScoreKeys registryNames) hd = amendedAccepted registryNames hd := by
  cases hd with
  | str s =>
    simp only [headAccepted, amendedAccepted, mkScoreKeys, List.contains_eq_any_beq,
      List.any_map]
    rfl
  | call m => rfl
  | obj => rfl

/-- C1 (corrected): `check_score_computation` accepts the list iff every
entry's first element is a masking-function name, the exact lowercase form of
a registered name, or a callable, and otherwise raises the `ValueError`
naming the first offending entry. -/
theorem check_score_computation_characterization (registryNames : List String)
    (comps : List Computation) :
    check_score_computation (mkScoreKeys registryNames) comps =
      match comps.find? (fun c => !(amendedAccepted registryNames c.head)) with
      | none => .ok ()
      | some c => .error (unknownCompMsg c.head) := by
  induction comps with
  | nil => rfl
  | cons c rest ih =>
    simp only [check_score_computation, headAccepted_mkScoreKeys]
    cases h : amendedAccepted registryNames c.head with
    | true => simpa [List.find?, h] using ih
    | false => simp [List.find?, h]

/-- C1 counterexample: the entry `"CosineGreedy"` matches the registered name
`"CosineGreedy"` case-insensitively, yet `check_score_computation` (whose key
set holds only the lowercased `"cosinegreedy"`) rejects it. -/
theorem check_rejects_case_insensitive_entry :
    claimAccepted ["CosineGreedy"] (.str ("CosineGreedy")) = true ∧
    check_score_computation (mkScoreKeys ["CosineGreedy"]) [.bare (.str ("CosineGreedy"))] =
      .error ("Unknown score computation: CosineGreedy.") := by
  constructor
  · decide
  · rfl

/-- C7 (code bug): the `reference_filters` setter writes the transposed key
`"refernece_filters"`, so the property read immediately afterwards still
returns the old list, and the workflow no longer passes `check_workflow`'s
key-set assertion. -/
theorem reference_filters_setter_typo :
    getReferenceFilters (setReferenceFilters fxWorkflowDict ["f3"]) = some ["f2"] ∧
    getReferenceFilters (setReferenceFilters fxWorkflowDict ["f3"]) ≠ some ["f3"] ∧
    check_workflow_keys fxWorkflowDict = true ∧
    check_workflow_keys (setReferenceFilters fxWorkflowDict ["f3"]) = false := by
  refine ⟨by decide, by decide, by decide, by decide⟩

/-- C3 counterexample: after sentinel resolution the two fields are equal by
value, but mutating the query filter list in place changes
`reference_filters` as well (the code aliases), whereas the copying
resolution described by the claim would leave it unchanged. -/
theorem sentinel_resolution_not_a_copy :
    readReferenceFilters (load_in_workflow_resolve fxSentinelDoc) =
      some (readQueryFilters (load_in_workflow_resolve fxSentinelDoc)) ∧
    readReferenceFilters (mutateList (load_in_workflow_resolve fxSentinelDoc) 0 ["add_mz", "x"]) =
      some ["add_mz", "x"] ∧
    readReferenceFilters
        (mutateList (load_in_workflow_resolve_copying fxSentinelDoc) 0 ["add_mz", "x"]) =
      some ["add_mz"] := by
  refine ⟨by decide, by decide, by decide⟩

/-- C3 (amended): loading a document whose reference field holds the sentinel
assigns the query filter list *object* to it — equal by value, and any
in-place mutation of the query list is shared with `reference_filters`. -/
theorem sentinel_resolution_aliases (w : WorkflowHeap) (hw : w.refField = none) :
    (load_in_workflow_resolve w).refField = some w.queryAddr ∧
    readReferenceFilters (load_in_workflow_resolve w) = some (readQueryFilters w) ∧
    ∀ l, readReferenceFilters (mutateList (load_in_workflow_resolve w) w.queryAddr l) =
          some (readQueryFilters (mutateList (load_in_workflow_resolve w) w.queryAddr l)) := by
  obtain ⟨lists, qa, rf⟩ := w
  cases rf with
  | none =>
    refine ⟨rfl, rfl, ?_⟩
    intro l
    rfl
  | some a => exact absurd hw (by simp)

/-- C3 witness: the aliasing theorem applied to the concrete sentinel
document and a concrete in-place mutation. -/
theorem sentinel_resolution_aliases_witness :
    fxSentinelDoc.refField = none ∧
    readReferenceFilters
        (mutateList (load_in_workflow_resolve fxSentinelDoc) fxSentinelDoc.queryAddr
          ["add_mz", "x"]) =
      some (readQueryFilters
        (mutateList (load_in_workflow_resolve fxSentinelDoc) fxSentinelDoc.queryAddr
          ["add_mz", "x"])) :=
  ⟨rfl, (sentinel_resolution_aliases fxSentinelDoc rfl).2.2 ["add_mz", "x"]⟩

/-- C2 (code bug): a workflow whose first score-computation entry is the
masking operation passes `check_score_computation` — so Pipeline construction
and validation succeed — and the failure only surfaces inside `run`, after the
spectra have been imported and processed, as the `AttributeError` raised on
`self.scores` being `None`. -/
theorem mask_first_accepted_then_run_fails :
    check_score_computation (mkScoreKeys ["PrecursorMzMatch"]) fxMaskFirst = .ok () ∧
    Pipeline.run (idEnv [("precursormzmatch", fxMeasure)]) fxMaskFirst [[fxSpectrum]] none =
      .error .attributeError := by
  exact ⟨rfl, rfl⟩

/-- C6: a run invoked without a reference source sets symmetric mode, never
runs the reference-filter pass, and ends with the processed reference
collection equal to the processed query collection. -/
theorem symmetric_run_single_pass (env : PipelineEnv) (comps : List Computation)
    (queryData : List (List Spectrum)) (res : RunResult)
    (hrun : Pipeline.run env comps queryData none = .ok res) :
    res.isSymmetric = true ∧ res.refPassRan = false ∧ res.references = res.queries := by
  have h2 : Pipeline.run env comps queryData none =
      match runComputations (env.processQueries queryData.flatten)
          (env.processQueries queryData.flatten) env.registry comps 0 none with
      | .error e => .error e
      | .ok scores =>
        .ok { queries := env.processQueries queryData.flatten,
              references := env.processQueries queryData.flatten,
              scores := scores, isSymmetric := true, refPassRan := false } := rfl
  rw [h2] at hrun
  cases hrc : runComputations (env.processQueries queryData.flatten)
      (env.processQueries queryData.flatten) env.registry comps 0 none with
  | error e =>
    rw [hrc] at hrun
    exact Except.noConfusion hrun
  | ok scores =>
    rw [hrc] at hrun
    injection hrun with h3
    subst h3
    exact ⟨rfl, rfl, rfl⟩

/-- C6 witness: the symmetric-run theorem applied to a concrete run. -/
theorem symmetric_run_single_pass_witness :
    Pipeline.run (idEnv []) [] [[fxSpectrum]] none = .ok fxSymResult ∧
    (fxSymResult.isSymmetric = true ∧ fxSymResult.refPassRan = false ∧
      fxSymResult.references = fxSymResult.queries) :=
  ⟨rfl, symmetric_run_single_pass (idEnv []) [] [[fxSpectrum]] fxSymResult rfl⟩

/-- Finding a key in the zip of a list with its image finds the key paired
with its own image, duplicates notwithstanding. -/
theorem find_zip_map_self {α β : Type} [BEq α] [LawfulBEq α] (l : List α) (f : α → β) (k : α)
    (hk : k ∈ l) :
    (l.zip (l.map f)).find? (fun p => p.1 == k) = some (k, f k) := by
  induction l with
  | nil => simp at hk
  | cons a rest ih =>
    by_cases hak : a = k
    · subst hak
      simp [List.find?]
    · have hk2 : k ∈ rest := by
        rcases List.mem_cons.mp hk with h | h
        · exact absurd h.symm hak
        · exact h
      have hbeq : (a == k) = false := by
        simp [hak]
      simp only [List.map_cons, List.zip_cons_cons, List.find?]
      rw [hbeq]
      exact ih hk2

/-- `add_sparse_data` called at exactly the matrix's own coordinates with the
pointwise evaluations of `f` upserts `f`'s value into every entry. -/
theorem add_sparse_data_at_coords (mtx : ScoreMatrix) (f : Nat × Nat → Rat) (name : String) :
    add_sparse_data mtx mtx.coords (mtx.coords.map f) name =
      { entries := mtx.entries.map (fun e => (e.1, upsert e.2 name (f e.1))),
        scoreNames := if mtx.scoreNames.contains name then mtx.scoreNames
                      else mtx.scoreNames ++ [name] } := by
  unfold add_sparse_data
  congr 1
  apply List.map_congr_left
  intro e he
  have hmem : e.1 ∈ mtx.coords := List.mem_map_of_mem Prod.fst he
  rw [find_zip_map_self mtx.coords f e.1 hmem]

/-- C4: a non-first similarity computation evaluates the measure's sparse
entrypoint only at the matrix's current coordinates, adding or overwriting
the measure-named column there; the coordinate set is unchanged. -/
theorem extend_evaluates_only_current_coords (references queries : List Spectrum)
    (registry : List (String × Measure)) (mtx : ScoreMatrix) (comp : Computation)
    (m : Measure) (i : Nat) (hi : i ≠ 0) (hm : resolveMeasure registry comp = .ok m) :
    ∃ mtx2,
      apply_similarity_measure references queries registry (some mtx) comp i = .ok mtx2 ∧
      mtx2.coords = mtx.coords ∧
      mtx2.entries = mtx.entries.map (fun e => (e.1, upsert e.2 m.name
        (m.f (references.getD e.1.1 default) (queries.getD e.1.2 default)))) ∧
      mtx2.scoreNames = (if mtx.scoreNames.contains m.name then mtx.scoreNames
                         else mtx.scoreNames ++ [m.name]) := by
  have heval : sparseEval references queries m mtx.coords =
      mtx.coords.map (fun c => m.f (references.getD c.1 default) (queries.getD c.2 default)) := rfl
  refine ⟨add_sparse_data mtx mtx.coords (sparseEval references queries m mtx.coords) m.name,
    ?_, ?_, ?_, ?_⟩
  · unfold apply_similarity_measure
    rw [hm]
    simp [hi]
  · rw [heval, add_sparse_data_at_coords]
    simp [ScoreMatrix.coords, List.map_map]
  · rw [heval, add_sparse_data_at_coords]
  · rw [heval, add_sparse_data_at_coords]

/-- C4 witness: the extension theorem applied to the concrete two-coordinate
matrix, registry and entry. -/
theorem extend_evaluates_only_current_coords_witness :
    (1 : Nat) ≠ 0 ∧ resolveMeasure fxRegistry fxComp2 = .ok fxMeasure2 ∧
    ∃ mtx2,
      apply_similarity_measure [fxSpectrum] [fxSpectrum] fxRegistry (some fxMatrix) fxComp2 1 =
        .ok mtx2 ∧
      mtx2.coords = fxMatrix.coords ∧
      mtx2.entries = fxMatrix.entries.map (fun e => (e.1, upsert e.2 fxMeasure2.name
        (fxMeasure2.f ([fxSpectrum].getD e.1.1 default) ([fxSpectrum].getD e.1.2 default)))) ∧
      mtx2.scoreNames = (if fxMatrix.scoreNames.contains fxMeasure2.name then fxMatrix.scoreNames
                         else fxMatrix.scoreNames ++ [fxMeasure2.name]) :=
  ⟨by decide, rfl,
    extend_evaluates_only_current_coords [fxSpectrum] [fxSpectrum] fxRegistry fxMatrix fxComp2
      fxMeasure2 1 (by decide) rfl⟩

/-- Filtering the entries and projecting to coordinates equals filtering the
coordinate list by the coordinate-level predicate, for duplicate-free
coordinates. -/
theorem filter_entries_coords (entries : List ((Nat × Nat) × List (String × Rat)))
    (ns : List String) (name : String) (low high : Option Rat)
    (hnodup : (entries.map Prod.fst).Nodup) :
    (entries.filter (fun e => match lookupScore e.2 name with
        | some v => inRangeB v low high
        | none => false)).map Prod.fst =
      (entries.map Prod.fst).filter (maskKeep ⟨entries, ns⟩ name low high) := by
  induction entries with
  | nil => rfl
  | cons e rest ih =>
    rw [List.map_cons] at hnodup
    have hhead : e.1 ∉ rest.map Prod.fst := (List.nodup_cons.mp hnodup).1
    have htail : (rest.map Prod.fst).Nodup := (List.nodup_cons.mp hnodup).2
    have hkeep_head : maskKeep ⟨e :: rest, ns⟩ name low high e.1 =
        (match lookupScore e.2 name with
         | some v => inRangeB v low high
         | none => false) := by
      simp [maskKeep, valueAt, List.find?]
    have hkeep_tail : ∀ c ∈ rest.map Prod.fst,
        maskKeep ⟨e :: rest, ns⟩ name low high c = maskKeep ⟨rest, ns⟩ name low high c := by
      intro c hc
      have hne : (e.1 == c) = false := by
        simp only [beq_eq_false_iff_ne, ne_eq]
        intro hEq
        exact hhead (hEq ▸ hc)
      simp [maskKeep, valueAt, List.find?, hne]
    rw [List.map_cons, List.filter_cons, List.filter_cons, hkeep_head]
    cases hp : (match lookupScore e.2 name with
        | some v => inRangeB v low high
        | none => false) with
    | true =>
      rw [if_pos rfl, if_pos rfl, List.map_cons]
      congr 1
      rw [List.filter_congr hkeep_tail]
      exact ih htail
    | false =>
      rw [if_neg Bool.false_ne_true, if_neg Bool.false_ne_true]
      rw [List.filter_congr hkeep_tail]
      exact ih htail

/-- C5: masking retains exactly the prior coordinates whose value under the
named column lies in `[low, high]` (an omitted bound unconstrained), and an
omitted column name defaults to the last entry of the chronological
`score_names` list — the column added by the most recent
initialize/extend. -/
theorem mask_coordinates_exact (mtx : ScoreMatrix) (name : String) (low high : Option Rat)
    (hd : CompHead) (hname : mtx.scoreNames.contains name = true)
    (hnodup : mtx.coords.Nodup) :
    (∃ mtx2, filter_by_range mtx name low high = .ok mtx2 ∧
      mtx2.coords = mtx.coords.filter (maskKeep mtx name low high) ∧
      mtx2.scoreNames = mtx.scoreNames) ∧
    apply_score_masking (some mtx) (.listed hd { name := none, low := low, high := high }) =
      (match mtx.scoreNames.getLast? with
       | some last => filter_by_range mtx last low high
       | none => .error .indexError) ∧
    apply_score_masking (some mtx) (.listed hd { name := some name, low := low, high := high }) =
      filter_by_range mtx name low high := by
  refine ⟨?_, ?_, rfl⟩
  case refine_2 =>
    cases hLast : mtx.scoreNames.getLast? with
    | none => simp [apply_score_masking, hLast]
    | some last => simp [apply_score_masking, hLast]
  refine ⟨{ entries := mtx.entries.filter (fun e => match lookupScore e.2 name with
              | some v => inRangeB v low high
              | none => false),
            scoreNames := mtx.scoreNames }, ?_, ?_, rfl⟩
  · unfold filter_by_range
    rw [hname]
    rfl
  · obtain ⟨entries, ns⟩ := mtx
    exact filter_entries_coords entries ns name low high hnodup

/-- C5 witness: the masking theorem applied to the concrete two-column
matrix with an explicit lower bound. -/
theorem mask_coordinates_exact_witness :
    fxMatrix.scoreNames.contains ("CosineGreedy_score") = true ∧ fxMatrix.coords.Nodup ∧
    (∃ mtx2, filter_by_range fxMatrix ("CosineGreedy_score") (some (1 / 2)) none = .ok mtx2 ∧
      mtx2.coords = fxMatrix.coords.filter
        (maskKeep fxMatrix ("CosineGreedy_score") (some (1 / 2)) none) ∧
      mtx2.scoreNames = fxMatrix.scoreNames) :=
  ⟨by decide, by decide,
    (mask_coordinates_exact fxMatrix ("CosineGreedy_score") (some (1 / 2)) none
      (.str ("filter_by_range")) (by decide) (by decide)).1⟩

/-- C8 counterexample: `make_charge_int` on a spectrum whose charge is the
unconvertible string `"2+"` emits a warning but returns the spectrum with the
charge field still holding the original string — no absence marker is
stored. -/
theorem make_charge_int_no_absence_marker :
    make_charge_int (some fxBadCharge) = .ok (some fxBadCharge, [chargeWarn ("2+")]) ∧
    fxBadCharge.get ("charge") = some (.str ("2+")) ∧
    Value.str ("2+") ≠ Value.vnone := by
  refine ⟨rfl, rfl, by decide⟩

/-- C8 (amended): on string values that fail numeric conversion the
harmonization filters do not raise — a warning naming the value is emitted
and a spectrum (not `None`) is returned: `add_retention_time` stores an
explicit `None` under `retention_time`, while `make_charge_int` leaves the
charge string unchanged; a list value of length at least two, however, makes
`safe_convert_to_float` raise `TypeError`. -/
theorem harmonization_soft_failure_amended :
    (∀ s cs, s.get ("charge") = some (.str cs) → intParse cs = none →
      make_charge_int (some s) = .ok (some s, [chargeWarn cs])) ∧
    (∀ s rs,
      get_common_keys (s.metadata.map Prod.fst) retention_time_keys = ["retention_time"] →
      s.get ("retention_time") = some (.str rs) → floatParse rs = none →
      add_retention_time (some s) =
        .ok (some (s.set ("retention_time") .vnone), [rtWarn (.str rs)])) ∧
    (∀ a b l, safe_convert_to_float (.vlist (a :: b :: l)) = .error .typeError) := by
  refine ⟨?_, ?_, ?_⟩
  · intro s cs hget hparse
    simp only [make_charge_int, Spectrum.clone]
    rw [hget]
    simp [hparse]
  · intro s rs hck hget hparse
    simp only [add_retention_time, Spectrum.clone, add_retention_core]
    rw [hck]
    simp [getValuesForKeys, hget, mapConvert, safe_convert_to_float, floatOfValue, hparse,
      firstSome, safe_store_value]
    rfl
  · intro a b l
    rfl

/-- C8 witness: the amended theorem applied to the concrete bad-charge and
bad-retention spectra. -/
theorem harmonization_soft_failure_amended_witness :
    (fxBadCharge.get ("charge") = some (.str ("2+")) ∧ intParse ("2+") = none ∧
      make_charge_int (some fxBadCharge) = .ok (some fxBadCharge, [chargeWarn ("2+")])) ∧
    (get_common_keys (fxBadRt.metadata.map Prod.fst) retention_time_keys =
        ["retention_time"] ∧
      fxBadRt.get ("retention_time") = some (.str ("later")) ∧
      floatParse ("later") = none ∧
      add_retention_time (some fxBadRt) =
        .ok (some (fxBadRt.set ("retention_time") .vnone), [rtWarn (.str ("later"))])) :=
  ⟨⟨rfl, by decide,
      harmonization_soft_failure_amended.1 fxBadCharge ("2+") rfl (by decide)⟩,
    ⟨by decide, rfl, by decide,
      harmonization_soft_failure_amended.2.1 fxBadRt ("later") (by decide) rfl (by decide)⟩⟩

/-- Replacing the value of a present key and then looking the key up yields
the new value. -/
theorem find_map_replace {α : Type} (l : List (String × α)) (k : String) (v : α)
    (hany : l.any (fun p => p.1 == k) = true) :
    ((l.map (fun p => if p.1 == k then (k, v) else p)).find?
        (fun p => p.1 == k)).map Prod.snd = some v := by
  induction l with
  | nil => simp at hany
  | cons p rest ih =>
    by_cases hp : (p.1 == k) = true
    · simp only [List.map_cons, if_pos hp]
      simp [List.find?]
    · have htail : rest.any (fun x => x.1 == k) = true := by
        rcases List.any_eq_true.mp hany with ⟨x, hx, hxk⟩
        rcases List.mem_cons.mp hx with h | h
        · rw [h] at hxk
          exact absurd hxk hp
        · exact List.any_eq_true.mpr ⟨x, h, hxk⟩
      simp only [List.map_cons, if_neg hp]
      rw [List.find?_cons_of_neg _ (by simpa using hp)]
      exact ih htail

/-- Looking up a key right after `upsert` yields the stored value. -/
theorem find_upsert {α : Type} (l : List (String × α)) (k : String) (v : α) :
    ((upsert l k v).find? (fun p => p.1 == k)).map Prod.snd = some v := by
  unfold upsert
  by_cases hany : l.any (fun p => p.1 == k) = true
  · rw [if_pos hany]
    exact find_map_replace l k v hany
  · rw [if_neg hany]
    have hnone : l.find? (fun p => p.1 == k) = none := by
      rw [List.find?_eq_none]
      intro p hp
      intro hc
      exact hany (List.any_eq_true.mpr ⟨p, hp, hc⟩)
    rw [List.find?_append, hnone]
    simp [List.find?]

/-- `Spectrum.set` followed by `Spectrum.get` of the same key. -/
theorem get_set_self (s : Spectrum) (k : String) (v : Value) :
    (s.set k v).get k = some v := by
  unfold Spectrum.get Spectrum.set
  exact find_upsert s.metadata k v

/-- C10: a spectrum whose single retention-time key holds a value converting
to a negative float comes back as a fresh clone with `retention_time` set to
Python `None`, while the input spectrum's heap cell is untouched. -/
theorem add_retention_time_discards_negative (heap : List Spectrum) (i : Nat) (s : Spectrum)
    (v : Value) (q : Rat) (hs : heap.get? i = some s)
    (hck : get_common_keys (s.metadata.map Prod.fst) retention_time_keys = ["retention_time"])
    (hv : s.get ("retention_time") = some v) (hq : floatOfValue v = .ok q) (hneg : q < 0) :
    add_retention_time_heap heap i =
      .ok (heap ++ [s.set ("retention_time") .vnone], heap.length) ∧
    (heap ++ [s.set ("retention_time") .vnone]).get? i = some s ∧
    (heap ++ [s.set ("retention_time") .vnone]).get? heap.length =
      some (s.set ("retention_time") .vnone) ∧
    (s.set ("retention_time") .vnone).get ("retention_time") = some Value.vnone := by
  have hnle : ¬ (0 : Rat) ≤ q := not_le.mpr hneg
  have hconv : safe_convert_to_float v = .ok (none, []) := by
    cases v with
    | str s2 => simp [safe_convert_to_float, hq, hnle]
    | int n => simp [safe_convert_to_float, hq, hnle]
    | float q2 => simp [safe_convert_to_float, hq, hnle]
    | vlist l =>
      cases l with
      | nil => simp [floatOfValue] at hq
      | cons a t =>
        cases t with
        | nil => simp [floatOfValue] at hq
        | cons b t2 => simp [floatOfValue] at hq
    | vnone => simp [floatOfValue] at hq
  have hvne : v ≠ Value.vnone := by
    intro hEq
    rw [hEq] at hq
    simp [floatOfValue] at hq
  refine ⟨?_, ?_, ?_, get_set_self s ("retention_time") Value.vnone⟩
  · simp only [add_retention_time_heap]
    rw [hs]
    simp only [add_retention_core]
    rw [hck]
    simp [getValuesForKeys, hv, hvne, mapConvert, hconv, firstSome, safe_store_value]
    rfl
  · have hi : i < heap.length := by
      by_contra hc
      rw [List.get?_eq_none.mpr (Nat.le_of_not_lt hc)] at hs
      exact Option.noConfusion hs
    rw [List.get?_append hi]
    exact hs
  · exact List.get?_concat_length heap (s.set ("retention_time") .vnone)

/-- C10 witness: the negative-retention theorem applied to a one-cell heap. -/
theorem add_retention_time_discards_negative_witness :
    ([fxNegativeRt].get? 0 = some fxNegativeRt) ∧ ((-5 : Rat) < 0) ∧
    floatOfValue (.float (-5)) = .ok (-5) ∧
    add_retention_time_heap [fxNegativeRt] 0 =
      .ok ([fxNegativeRt] ++ [fxNegativeRt.set ("retention_time") .vnone], 1) ∧
    ([fxNegativeRt] ++ [fxNegativeRt.set ("retention_time") .vnone]).get? 0 =
      some fxNegativeRt ∧
    (fxNegativeRt.set ("retention_time") .vnone).get ("retention_time") = some Value.vnone := by
  have h := add_retention_time_discards_negative [fxNegativeRt] 0 fxNegativeRt (.float (-5))
    (-5) rfl (by decide) rfl rfl (by norm_num)
  exact ⟨rfl, by norm_num, rfl, h.1, h.2.1, h.2.2.2⟩

/-- `joinStr` distributes over list append. -/
theorem joinStr_append (l1 l2 : List String) :
    joinStr (l1 ++ l2) = joinStr l1 ++ joinStr l2 := by
  induction l1 with
  | nil =>
    show joinStr l2 = "" ++ joinStr l2
    rw [String.empty_append]
  | cons a l ih =>
    show a ++ joinStr (l ++ l2) = (a ++ joinStr l) ++ joinStr l2
    rw [ih, String.append_assoc]

/-- `expandtabs` leaves a trailing newline in place. -/
theorem expandTabsAux_newline (tabsize : Nat) (l : List Char) (col : Nat) :
    expandTabsAux tabsize (l ++ ['\n']) col = expandTabsAux tabsize l col ++ ['\n'] := by
  induction l generalizing col with
  | nil => simp [expandTabsAux]
  | cons c rest ih =>
    by_cases hc : c = '\t'
    · subst hc
      by_cases hts : tabsize = 0
      · subst hts
        simp [expandTabsAux, ih]
      · simp [expandTabsAux, hts, ih]
    · by_cases hnl : c = '\n' ∨ c = '\r'
      · simp [expandTabsAux, hc, hnl, ih]
      · simp [expandTabsAux, hc, hnl, ih]

/-- String-level version of the trailing-newline property of `expandtabs`. -/
theorem expandTabs_newline (s : String) (tabsize : Nat) :
    expandTabs (s ++ ("\n")) tabsize = expandTabs s tabsize ++ ("\n") := by
  unfold expandTabs
  rw [show (s ++ ("\n")).data = s.data ++ ['\n'] from String.data_append s ("\n")]
  rw [expandTabsAux_newline]
  rfl

/-- One written record equals the amended line-wise description with every
line closed by a newline. -/
theorem write_spectrum_eq_lines (s : Spectrum) :
    write_spectrum s = joinStr ((amended_record_lines s).map (fun l => l ++ ("\n"))) := by
  have hA : (s.metadata.filterMap (fun p =>
        if is_num_peaks p.1 then none
        else some (upperString p.1 ++ (": ") ++ showValue p.2))).map (fun l => l ++ ("\n")) =
      s.metadata.filterMap (fun p =>
        if is_num_peaks p.1 then none
        else some (upperString p.1 ++ (": ") ++ showValue p.2 ++ ("\n"))) := by
    rw [List.map_filterMap]
    congr 1
    funext p
    by_cases hk : is_num_peaks p.1 = true
    · rw [if_pos hk, if_pos hk]
      rfl
    · rw [if_neg hk, if_neg hk]
      rfl
  have hP : ((s.peaksMz.zip s.peaksIntensities).map (fun p =>
        expandTabs (showFloat p.1 ++ ("\t") ++ showFloat p.2 ++ ("\t") ++
          format_peak_comment p.1 s.peakComments) 12)).map (fun l => l ++ ("\n")) =
      (s.peaksMz.zip s.peaksIntensities).map (fun p =>
        expandTabs (showFloat p.1 ++ ("\t") ++ showFloat p.2 ++ ("\t") ++
          format_peak_comment p.1 s.peakComments ++ ("\n")) 12) := by
    rw [List.map_map]
    apply List.map_congr_left
    intro p _
    exact (expandTabs_newline _ 12).symm
  unfold write_spectrum write_metadata write_peaks amended_record_lines
  rw [List.map_append, List.map_append, List.map_append, joinStr_append, joinStr_append,
    joinStr_append, hA, hP]
  simp [joinStr, String.append_assoc]

/-- C9 (amended): the export writes, for each spectrum, its metadata as
uppercased `KEY: value` lines (keys beginning with `num peaks` omitted), the
peak-count line, one tab-separated peak line per peak with tabs expanded to
12-column stops, and a blank line closing each record (separating consecutive
records and terminating the last). -/
theorem save_as_msp_amended_format (spectra : List Spectrum) :
    save_as_msp_string spectra = amended_msp_output spectra := by
  unfold save_as_msp_string amended_msp_output
  congr 1
  apply List.map_congr_left
  intro s _
  exact write_spectrum_eq_lines s

/-- C9 counterexample: already for one single-peak spectrum the written file
differs from the claim-described format — the peak line's tabs are expanded
to column stops and the record is terminated, not merely separated, by a
blank line. -/
theorem save_as_msp_differs_from_claim_format :
    save_as_msp_string [fxMspSpectrum] ≠ claim_msp_output [fxMspSpectrum] := by
  decide

end MatchmsSpec
